import Mathlib

set_option autoImplicit false

/-!
Shallow embedding of tf-keras-vis: `tf_keras_vis/gradcam.py` (`Gradcam.__call__`).

Tensors are modelled with exact rational values, a shape list, and a dtype tag;
the spatial axes of a feature map are flattened into a single position axis.
Repository helpers that are imported by `gradcam.py` but whose source is not
available (`tf_keras_vis.utils.standardize`, `zoom_factor`, the validation
helpers of `ModelVisualization`, and the model modifier
`ExtractIntermediateLayerForGradcam`) are modelled from the specification and
marked as such in their doc comments.  External TensorFlow behaviour
(`tf.GradientTape`, `tf.UnconnectedGradients`) is modelled from its documented
semantics.  The call also records a trace of observable events (watch, forward,
score evaluation, gradient request, weighting, activation, zoom, standardize)
so that ordering and dtype properties can be stated observationally.
-/

abbrev Val := ℚ

inductive DType
  | float16
  | float32
  deriving DecidableEq, Repr

/-- A tensor: a shape (leading batch axis), flat data, and a dtype tag. -/
structure T where
  shape : List Nat
  data : List Val
  dtype : DType
  deriving DecidableEq, Repr

def T.batch (t : T) : Nat := t.shape.headD 1

/-- Flattened size of the middle (spatial) axes of the shape. -/
def T.positions (t : T) : Nat := ((t.shape.drop 1).dropLast).prod

/-- Size of the trailing (channel) axis of the shape. -/
def T.channels (t : T) : Nat := (t.shape.drop 1).getLastD 1

/-- Model of `tf.cast`: values are exact here, only the dtype tag changes. -/
def T.castTo (t : T) (d : DType) : T := ⟨t.shape, t.data, d⟩

def getD (xs : List Val) (i : Nat) : Val := xs.getD i 0

/-- Flat index into a (batch, positions, channels) tensor. -/
def idx3 (P C b p c : Nat) : Nat := b * (P * C) + p * C + c

def listMean (xs : List Val) : Val := xs.sum / (xs.length : Val)

/-- Model of line 122 of gradcam.py:
`weights = K.mean(grads, axis=tuple(range(grads.ndim)[1:-1]), keepdims=True)` —
the mean of the gradients over the spatial axes, one value per (batch, channel). -/
def weightsData (g : T) : List Val :=
  (List.range (g.batch * g.channels)).map fun i =>
    listMean ((List.range g.positions).map fun p =>
      getD g.data (idx3 g.positions g.channels (i / g.channels) p (i % g.channels)))

/-- Model of line 123 of gradcam.py:
`cam = np.sum(np.multiply(penultimate_output, weights), axis=-1)` —
the channel-weighted sum of the penultimate activation. -/
def camData (pen : T) (w : List Val) : List (List Val) :=
  (List.range pen.batch).map fun b =>
    (List.range pen.positions).map fun p =>
      ((List.range pen.channels).map fun c =>
        getD pen.data (idx3 pen.positions pen.channels b p c) * getD w (b * pen.channels + c)).sum

/-- Model of `K.relu`, the default `activation_modifier` (line 31 of gradcam.py). -/
def relu (x : Val) : Val := max x 0

/-- Elementwise application of an activation modifier to a (batch, positions) map. -/
def elemMap (f : Val → Val) (c : List (List Val)) : List (List Val) := c.map (List.map f)

def listMin : List Val → Val
  | [] => 0
  | x :: xs => xs.foldl min x

def listMax : List Val → Val
  | [] => 0
  | x :: xs => xs.foldl max x

/-- Modelled from the spec: `tf_keras_vis.utils.standardize` (not under src/):
per example, rescale values to the unit interval by (x - min) / (max - min),
with a guard against zero range: such elements map to the constant 0. -/
def standardize (xs : List Val) : List Val :=
  if listMax xs = listMin xs then xs.map fun _ => 0
  else xs.map fun x => (x - listMin xs) / (listMax xs - listMin xs)

/-- Per-example standardization of a (batch, positions) map. -/
def standardizeCamBatch (c : List (List Val)) : List (List Val) := c.map standardize

/-- Modelled from the spec: order-1 (linear) resampling of one example row to
length n, as performed by `scipy.ndimage.zoom(cam, factor, order=1)` along the
flattened spatial axis; the batch axis is never resampled. -/
def resampleLinear (xs : List Val) (n : Nat) : List Val :=
  if xs.length ≤ 1 ∨ n ≤ 1 then List.replicate n (xs.headD 0)
  else
    (List.range n).map fun i =>
      let pos : Val := ((i * (xs.length - 1) : Nat) : Val) / (((n - 1 : Nat)) : Val)
      let lo : Nat := pos.floor.toNat
      let frac : Val := pos - (lo : Val)
      getD xs lo * (1 - frac) + getD xs (lo + 1) * frac

/-- Per-example zoom of a (batch, positions) map to target spatial length n. -/
def zoomCam (c : List (List Val)) (n : Nat) : List (List Val) :=
  c.map fun row => resampleLinear row n

/-- Modelled from the spec: `tf_keras_vis.utils.zoom_factor` (not under src/):
the target of the resampling is the spatial size of the corresponding seed
input (batch and channel axes are never resampled, factor 1). -/
def targetLen (t : T) : Nat := ((t.shape.drop 1).dropLast).prod

/-- A score: consumes one model output tensor, yields one scalar per example. -/
abbrev ScoreF := T → List Val

inductive ScoreArg
  | noScore
  | single (s : ScoreF)
  | multi (ss : List (Option ScoreF))

inductive SeedArg
  | noSeed
  | single (t : T)
  | multi (ts : List T)

/-- Model of Python `isinstance(seed_input, list)` (line 137 of gradcam.py). -/
def SeedArg.isList : SeedArg → Bool
  | .multi _ => true
  | _ => false

inductive GErr
  | valueError (msg : String)
  | noneGradient
  deriving DecidableEq, Repr

/-- Modelled from the spec:
`ModelVisualization._get_scores_for_multiple_outputs` (not under src/):
rejects a missing score, rejects a bare score on a multi-output model, rejects
a score list whose length differs from the model output count or that contains
a missing entry; all rejections are ValueError-class. -/
def getScoresForMultipleOutputs (numOutputs : Nat) : ScoreArg → Except GErr (List ScoreF)
  | .noScore => .error (.valueError "Score is required.")
  | .single s =>
    if numOutputs = 1 then .ok [s]
    else .error (.valueError "The model has multiple outputs but only one score was given.")
  | .multi ss =>
    if ss.length = numOutputs ∧ ss.all Option.isSome then .ok (ss.filterMap id)
    else .error (.valueError "The number of scores must match the model outputs.")

/-- Modelled from the spec: the per-input rank check and batch promotion of
`ModelVisualization._get_seed_inputs_for_multiple_inputs` (not under src/):
a seed whose shape equals the declared per-example shape is promoted to batch
size 1; a seed whose shape is the declared shape with one leading batch axis is
accepted as is; anything else is a ValueError. -/
def validateSeedInput (spec : List Nat) (t : T) : Except GErr T :=
  if t.shape = spec then .ok ⟨1 :: spec, t.data, t.dtype⟩
  else if t.shape.drop 1 = spec ∧ t.shape ≠ [] then .ok t
  else .error (.valueError "invalid seed input shape")

def validateSeedInputs : List (List Nat) → List T → Except GErr (List T)
  | [], [] => .ok []
  | spec :: specs, t :: ts =>
    match validateSeedInput spec t, validateSeedInputs specs ts with
    | .ok v, .ok vs => .ok (v :: vs)
    | .error e, _ => .error e
    | .ok _, .error e => .error e
  | _, _ => .error (.valueError "the number of seed inputs must match the model inputs")

/-- Modelled from the spec:
`ModelVisualization._get_seed_inputs_for_multiple_inputs` (not under src/):
canonicalizes one-or-a-list into a list, requires a list of matching length on
a multi-input model, and validates each seed against its input spec. -/
def getSeedInputsForMultipleInputs (inputSpecs : List (List Nat)) :
    SeedArg → Except GErr (List T)
  | .noSeed => .error (.valueError "seed_input is required")
  | .single t =>
    if inputSpecs.length = 1 then validateSeedInputs inputSpecs [t]
    else .error (.valueError "When the model has multiple inputs, a list is required.")
  | .multi ts => validateSeedInputs inputSpecs ts

/-- The differentiable-model collaborator (spec section 6), with the data the
gradcam pipeline observes: input specs, output count, mixed-precision flag and
variable dtype, whether the penultimate-layer search succeeds, whether the
objective is connected to the penultimate activation, the forward pass for the
original outputs and for the penultimate activation, and the gradient oracle. -/
structure GModel where
  inputSpecs : List (List Nat)
  numOutputs : Nat
  mixedPrecision : Bool
  variableDtype : DType
  penultimateResolved : Bool
  connected : Bool
  forward : Bool → List T → List T
  penult : Bool → List T → T
  gradData : List T → List (List Val) → List Val

/-- Modelled from the spec:
`ExtractIntermediateLayerForGradcam` (not under src/), spec section 4.4: the
locator either resolves a spatial penultimate layer or fails with ValueError. -/
def modelModifier (m : GModel) : Except GErr Unit :=
  if m.penultimateResolved then .ok ()
  else .error (.valueError "Unable to determine penultimate layer.")

/-- Modelled from the spec, section 4.4: the augmented model's outputs are the
original outputs plus the resolved penultimate activation appended last. -/
def augmentedOutputs (m : GModel) (training : Bool) (seeds : List T) : List T :=
  m.forward training seeds ++ [m.penult training seeds]

/-- Modelled from the spec: `ModelVisualization._calculate_scores` (not under
src/), spec section 4.1: each score consumes its corresponding model output and
yields one scalar per example. -/
def calculateScores (outs : List T) (scores : List ScoreF) : List (List Val) :=
  List.zipWith (fun s o => s o) scores outs

inductive UnconnectedGradients
  | NONE
  | ZERO
  deriving DecidableEq, Repr

def defaultT : T := ⟨[], [], .float32⟩

/-- Modelled from the spec (section 4.3: the unconnected policy, zero-fill
versus leave-undefined, is passed through verbatim to the differentiation call)
together with the documented TensorFlow semantics of
`tf.GradientTape.gradient`: with `tf.UnconnectedGradients.NONE` an unconnected
gradient is returned as Python None, with `ZERO` as a zero-filled tensor. -/
def tapeGradient (m : GModel) (seeds : List T) (scoreVals : List (List Val))
    (pen : T) (ug : UnconnectedGradients) : Option T :=
  if m.connected then some ⟨pen.shape, m.gradData seeds scoreVals, pen.dtype⟩
  else
    match ug with
    | .NONE => none
    | .ZERO => some ⟨pen.shape, pen.data.map fun _ => 0, pen.dtype⟩

inductive WatchTarget
  | seedInputs
  | penultimateActivation
  deriving DecidableEq, Repr

/-- Observable events of one `Gradcam.__call__` run, in order. -/
inductive Event
  | watch (w : WatchTarget)
  | forwardCall
  | scoreEval (outs : List T)
  | gradientCall (target : T) (ug : UnconnectedGradients)
  | weightsComputed (gradsDtype : DType)
  | camComputed (penDtype : DType)
  | activationApplied
  | zoomApplied (n : Nat)
  | standardizeApplied
  deriving DecidableEq, Repr

inductive CamOutput
  | single (c : List (List Val))
  | multi (cs : List (List (List Val)))
  deriving DecidableEq, Repr

def CamOutput.maps : CamOutput → List (List (List Val))
  | .single c => [c]
  | .multi cs => cs

/-- The keyword arguments of `Gradcam.__call__` with their source defaults
(lines 25-36 of gradcam.py); the `penultimate_layer` and
`seek_penultimate_conv_layer` hints are absorbed into
`GModel.penultimateResolved` since the locator itself is not under src/. -/
structure CallArgs where
  score : ScoreArg
  seed_input : SeedArg
  activation_modifier : Option (Val → Val) := some relu
  training : Bool := false
  normalize_gradient : Option Bool := none
  expand_cam : Bool := true
  standardize_cam : Bool := true
  unconnected_gradients : UnconnectedGradients := .NONE

structure CallResult where
  result : Except GErr CamOutput
  warnings : List String
  events : List Event

/-- The body of `Gradcam.__call__` after the deprecation warning, faithful to
lines 101-139 of gradcam.py: validate scores, validate seed inputs, apply the
model modifier, run the tape (watching the seed inputs) over the augmented
forward pass, split the augmented outputs, evaluate the scores on the original
outputs, request gradients with respect to the appended penultimate output,
cast under mixed precision, weight, apply the activation modifier, and either
return the bare map (expand_cam false) or zoom per input and unwrap. -/
def Gradcam.callCore (m : GModel) (score : ScoreArg) (seed_input : SeedArg)
    (activation_modifier : Option (Val → Val)) (training : Bool)
    (expand_cam standardize_cam : Bool) (ug : UnconnectedGradients) :
    Except GErr CamOutput × List Event :=
  match getScoresForMultipleOutputs m.numOutputs score with
  | .error e => (.error e, [])
  | .ok scores =>
    match getSeedInputsForMultipleInputs m.inputSpecs seed_input with
    | .error e => (.error e, [])
    | .ok seeds =>
      match modelModifier m with
      | .error e => (.error e, [])
      | .ok _ =>
        let allOuts := augmentedOutputs m training seeds
        let outs := allOuts.dropLast
        let pen0 := allOuts.getLastD defaultT
        let scoreVals := calculateScores outs scores
        let ev0 : List Event := [.watch .seedInputs, .forwardCall, .scoreEval outs,
          .gradientCall pen0 ug]
        match tapeGradient m seeds scoreVals pen0 ug with
        | none => (.error .noneGradient, ev0)
        | some grads0 =>
          let grads := if m.mixedPrecision then grads0.castTo m.variableDtype else grads0
          let pen := if m.mixedPrecision then pen0.castTo m.variableDtype else pen0
          let w := weightsData grads
          let cam0 := camData pen w
          let ev1 := ev0 ++ [.weightsComputed grads.dtype, .camComputed pen.dtype]
          let cam1 := match activation_modifier with
            | some f => elemMap f cam0
            | none => cam0
          let ev2 := ev1 ++ (match activation_modifier with
            | some _ => [Event.activationApplied]
            | none => [])
          if expand_cam = false then
            let cam2 := if standardize_cam then standardizeCamBatch cam1 else cam1
            let ev3 := ev2 ++ (if standardize_cam then [Event.standardizeApplied] else [])
            (.ok (.single cam2), ev3)
          else
            let cams := seeds.map fun X => zoomCam cam1 (targetLen X)
            let evZ := ev2 ++ seeds.map fun X => Event.zoomApplied (targetLen X)
            let cams2 := if standardize_cam then cams.map standardizeCamBatch else cams
            let evS := evZ ++ (if standardize_cam then [Event.standardizeApplied] else [])
            if m.inputSpecs.length = 1 ∧ seed_input.isList = false then
              (.ok (.single (cams2.headD [])), evS)
            else
              (.ok (.multi cams2), evS)

def deprecationMessage : String :=
  "normalize_gradient option is disabled. And this will be removed in future."

/-- `Gradcam.__call__` (lines 97-139 of gradcam.py): a non-None
`normalize_gradient` only emits a deprecation warning; the rest of the body
never reads it. -/
def Gradcam.call (m : GModel) (args : CallArgs) : CallResult :=
  let core := Gradcam.callCore m args.score args.seed_input args.activation_modifier
    args.training args.expand_cam args.standardize_cam args.unconnected_gradients
  ⟨core.1, if args.normalize_gradient.isSome then [deprecationMessage] else [], core.2⟩

def isOkResult : Except GErr CamOutput → Bool
  | .ok _ => true
  | .error _ => false

def resultMaps : Except GErr CamOutput → List (List (List Val))
  | .ok o => o.maps
  | .error _ => []

def exceptFailed {α : Type} : Except GErr α → Bool
  | .error _ => true
  | .ok _ => false

/-- The success branch of `Gradcam.callCore`, parametrized by the validated
seeds and the gradient tensor, shared by the proofs below. -/
def okBody (m : GModel) (seed_input : SeedArg) (activation_modifier : Option (Val → Val))
    (training : Bool) (expand_cam standardize_cam : Bool) (ug : UnconnectedGradients)
    (seeds : List T) (grads0 : T) : Except GErr CamOutput × List Event :=
  let allOuts := augmentedOutputs m training seeds
  let outs := allOuts.dropLast
  let pen0 := allOuts.getLastD defaultT
  let ev0 : List Event := [.watch .seedInputs, .forwardCall, .scoreEval outs,
    .gradientCall pen0 ug]
  let grads := if m.mixedPrecision then grads0.castTo m.variableDtype else grads0
  let pen := if m.mixedPrecision then pen0.castTo m.variableDtype else pen0
  let w := weightsData grads
  let cam0 := camData pen w
  let ev1 := ev0 ++ [.weightsComputed grads.dtype, .camComputed pen.dtype]
  let cam1 := match activation_modifier with
    | some f => elemMap f cam0
    | none => cam0
  let ev2 := ev1 ++ (match activation_modifier with
    | some _ => [Event.activationApplied]
    | none => [])
  if expand_cam = false then
    let cam2 := if standardize_cam then standardizeCamBatch cam1 else cam1
    let ev3 := ev2 ++ (if standardize_cam then [Event.standardizeApplied] else [])
    (.ok (.single cam2), ev3)
  else
    let cams := seeds.map fun X => zoomCam cam1 (targetLen X)
    let evZ := ev2 ++ seeds.map fun X => Event.zoomApplied (targetLen X)
    let cams2 := if standardize_cam then cams.map standardizeCamBatch else cams
    let evS := evZ ++ (if standardize_cam then [Event.standardizeApplied] else [])
    if m.inputSpecs.length = 1 ∧ seed_input.isList = false then
      (.ok (.single (cams2.headD [])), evS)
    else
      (.ok (.multi cams2), evS)

/-- The raw class-activation map: channel-mean weights of the (possibly cast)
gradients applied to the (possibly cast) penultimate activation. -/
def camOfGrads (m : GModel) (training : Bool) (seeds : List T) (grads0 : T) :
    List (List Val) :=
  camData
    (if m.mixedPrecision
      then ((augmentedOutputs m training seeds).getLastD defaultT).castTo m.variableDtype
      else (augmentedOutputs m training seeds).getLastD defaultT)
    (weightsData (if m.mixedPrecision then grads0.castTo m.variableDtype else grads0))

/-- The activation-modifier step: applied elementwise when present, skipped
when absent. -/
def camAct (am : Option (Val → Val)) (cam0 : List (List Val)) : List (List Val) :=
  match am with
  | some f => elemMap f cam0
  | none => cam0

/-- One zoomed map per seed input, each resampled to that input's spatial size. -/
def zoomedCams (m : GModel) (am : Option (Val → Val)) (training : Bool)
    (seeds : List T) (grads0 : T) : List (List (List Val)) :=
  seeds.map fun X => zoomCam (camAct am (camOfGrads m training seeds grads0)) (targetLen X)

def finalCams (sc : Bool) (cs : List (List (List Val))) : List (List (List Val)) :=
  if sc then cs.map standardizeCamBatch else cs

/-- The result of a successful call, by branch of `expand_cam` and the
single-input unwrapping condition. -/
def okResult (m : GModel) (seed_input : SeedArg) (am : Option (Val → Val))
    (training ec sc : Bool) (seeds : List T) (grads0 : T) : Except GErr CamOutput :=
  if ec = false then
    .ok (.single (if sc then standardizeCamBatch (camAct am (camOfGrads m training seeds grads0))
      else camAct am (camOfGrads m training seeds grads0)))
  else if m.inputSpecs.length = 1 ∧ seed_input.isList = false then
    .ok (.single ((finalCams sc (zoomedCams m am training seeds grads0)).headD []))
  else
    .ok (.multi (finalCams sc (zoomedCams m am training seeds grads0)))

/-- The events of the tape region and the weighting, before the optional
activation step. -/
def coreEvents (m : GModel) (training : Bool) (ug : UnconnectedGradients)
    (seeds : List T) (grads0 : T) : List Event :=
  [Event.watch .seedInputs, Event.forwardCall,
      Event.scoreEval ((augmentedOutputs m training seeds).dropLast),
      Event.gradientCall ((augmentedOutputs m training seeds).getLastD defaultT) ug]
    ++ [Event.weightsComputed
          (if m.mixedPrecision then grads0.castTo m.variableDtype else grads0).dtype,
        Event.camComputed
          (if m.mixedPrecision
            then ((augmentedOutputs m training seeds).getLastD defaultT).castTo m.variableDtype
            else (augmentedOutputs m training seeds).getLastD defaultT).dtype]

/-- The events common to every run that reaches the gradient computation. -/
def baseEvents (m : GModel) (am : Option (Val → Val)) (training : Bool)
    (ug : UnconnectedGradients) (seeds : List T) (grads0 : T) : List Event :=
  coreEvents m training ug seeds grads0
    ++ (match am with
      | some _ => [Event.activationApplied]
      | none => [])

/-- The full trace of a successful call. -/
def okEvents (m : GModel) (am : Option (Val → Val)) (training ec sc : Bool)
    (ug : UnconnectedGradients) (seeds : List T) (grads0 : T) : List Event :=
  if ec = false then
    baseEvents m am training ug seeds grads0
      ++ (if sc then [Event.standardizeApplied] else [])
  else
    (baseEvents m am training ug seeds grads0
        ++ seeds.map fun X => Event.zoomApplied (targetLen X))
      ++ (if sc then [Event.standardizeApplied] else [])

def penT0 : T := ⟨[1, 2, 2], [5, 1, 3, 7], .float32⟩

def outT0 : T := ⟨[1, 2], [2, 9], .float32⟩

def penT16 : T := ⟨[1, 2, 2], [5, 1, 3, 7], .float16⟩

def score0 : ScoreF := fun t => [t.data.headD 0]

def seed0 : T := ⟨[1, 2, 2, 2], [1, 0, 0, 1, 1, 0, 0, 1], .float32⟩

def seedB : T := ⟨[1, 3, 2], [1, 2, 3, 4, 5, 6], .float32⟩

def args0 : CallArgs := { score := .single score0, seed_input := .single seed0 }

def argsZero : CallArgs :=
  { score := .single score0, seed_input := .single seed0, unconnected_gradients := .ZERO }

def argsNoScore : CallArgs := { score := .noScore, seed_input := .single seed0 }

def argsTwo : CallArgs := { score := .single score0, seed_input := .multi [seed0, seedB] }

def argsTwoNoExpand : CallArgs :=
  { score := .single score0, seed_input := .multi [seed0, seedB], expand_cam := false }

def mConv : GModel :=
  ⟨[[2, 2, 2]], 1, false, .float32, true, true,
    fun _ _ => [outT0], fun _ _ => penT0, fun _ _ => [1, 2, 1, 2]⟩

example : isOkResult (Gradcam.call mConv args0).result = true := rfl
example : isOkResult (Gradcam.call mConv args0).result = true := by decide
example : 0 < (resultMaps (Gradcam.call mConv args0).result).length := by decide
example : 0 < ((resultMaps (Gradcam.call mConv args0).result).headD []).length := by decide

def mDisconnected : GModel :=
  ⟨[[2, 2, 2]], 1, false, .float32, true, false,
    fun _ _ => [outT0], fun _ _ => penT0, fun _ _ => [1, 2, 1, 2]⟩

def mMixed : GModel :=
  ⟨[[2, 2, 2]], 1, true, .float32, true, true,
    fun _ _ => [outT0], fun _ _ => penT16, fun _ _ => [1, 1, 1, 1]⟩

def mTwo : GModel :=
  ⟨[[2, 2, 2], [3, 2]], 1, false, .float32, true, true,
    fun _ _ => [outT0], fun _ _ => penT0, fun _ _ => [1, 2, 1, 2]⟩

lemma foldl_min_choice (xs : List Val) (a : Val) :
    xs.foldl min a = a ∨ xs.foldl min a ∈ xs := by
  induction xs generalizing a with
  | nil => exact Or.inl rfl
  | cons x xs ih =>
    rcases ih (min a x) with h | h
    · rcases min_choice a x with hm | hm
      · exact Or.inl (h.trans hm)
      · exact Or.inr (by rw [List.foldl_cons, h, hm]; exact List.mem_cons_self x xs)
    · exact Or.inr (List.mem_cons_of_mem x h)

lemma foldl_min_le_init (xs : List Val) (a : Val) : xs.foldl min a ≤ a := by
  induction xs generalizing a with
  | nil => exact le_refl a
  | cons x xs ih => exact le_trans (ih (min a x)) (min_le_left a x)

lemma foldl_min_le_mem (xs : List Val) (a : Val) {y : Val} (hy : y ∈ xs) :
    xs.foldl min a ≤ y := by
  induction xs generalizing a with
  | nil => cases hy
  | cons x xs ih =>
    rcases List.mem_cons.mp hy with h | h
    · subst h; exact le_trans (foldl_min_le_init xs (min a y)) (min_le_right a y)
    · exact ih (min a x) h

lemma listMin_mem {xs : List Val} (h : xs ≠ []) : listMin xs ∈ xs := by
  cases xs with
  | nil => exact absurd rfl h
  | cons x xs =>
    rcases foldl_min_choice xs x with h' | h'
    · rw [listMin, h']; exact List.mem_cons_self x xs
    · exact List.mem_cons_of_mem x (by rw [listMin]; exact h')

lemma listMin_le {xs : List Val} {y : Val} (hy : y ∈ xs) : listMin xs ≤ y := by
  cases xs with
  | nil => cases hy
  | cons x xs =>
    rcases List.mem_cons.mp hy with h | h
    · subst h; exact foldl_min_le_init xs y
    · exact foldl_min_le_mem xs x h

lemma foldl_max_choice (xs : List Val) (a : Val) :
    xs.foldl max a = a ∨ xs.foldl max a ∈ xs := by
  induction xs generalizing a with
  | nil => exact Or.inl rfl
  | cons x xs ih =>
    rcases ih (max a x) with h | h
    · rcases max_choice a x with hm | hm
      · exact Or.inl (h.trans hm)
      · exact Or.inr (by rw [List.foldl_cons, h, hm]; exact List.mem_cons_self x xs)
    · exact Or.inr (List.mem_cons_of_mem x h)

lemma le_foldl_max_init (xs : List Val) (a : Val) : a ≤ xs.foldl max a := by
  induction xs generalizing a with
  | nil => exact le_refl a
  | cons x xs ih => exact le_trans (le_max_left a x) (ih (max a x))

lemma le_foldl_max_mem (xs : List Val) (a : Val) {y : Val} (hy : y ∈ xs) :
    y ≤ xs.foldl max a := by
  induction xs generalizing a with
  | nil => cases hy
  | cons x xs ih =>
    rcases List.mem_cons.mp hy with h | h
    · subst h; exact le_trans (le_max_right a y) (le_foldl_max_init xs (max a y))
    · exact ih (max a x) h

lemma listMax_mem {xs : List Val} (h : xs ≠ []) : listMax xs ∈ xs := by
  cases xs with
  | nil => exact absurd rfl h
  | cons x xs =>
    rcases foldl_max_choice xs x with h' | h'
    · rw [listMax, h']; exact List.mem_cons_self x xs
    · exact List.mem_cons_of_mem x (by rw [listMax]; exact h')

lemma le_listMax {xs : List Val} {y : Val} (hy : y ∈ xs) : y ≤ listMax xs := by
  cases xs with
  | nil => cases hy
  | cons x xs =>
    rcases List.mem_cons.mp hy with h | h
    · subst h; exact le_foldl_max_init xs y
    · exact le_foldl_max_mem xs x h

/-- The standardized row of any raw row either spans exactly the unit interval
or is uniformly the zero-range fallback constant 0. -/
lemma standardize_cases (xs : List Val) :
    (listMin (standardize xs) = 0 ∧ listMax (standardize xs) = 1)
      ∨ ∀ y ∈ standardize xs, y = 0 := by
  by_cases h : listMax xs = listMin xs
  · refine Or.inr fun y hy => ?_
    rw [standardize, if_pos h] at hy
    rcases List.mem_map.mp hy with ⟨x, _, hx⟩
    exact hx.symm
  · left
    have hne : xs ≠ [] := by
      intro hnil; rw [hnil] at h; exact h rfl
    have hlt : listMin xs < listMax xs :=
      lt_of_le_of_ne (listMin_le (listMax_mem hne)) (fun hc => h hc.symm)
    have hd : (0 : Val) < listMax xs - listMin xs := sub_pos.mpr hlt
    have hstd : standardize xs
        = xs.map fun x => (x - listMin xs) / (listMax xs - listMin xs) := by
      rw [standardize, if_neg h]
    have h0 : (0 : Val) ∈ standardize xs := by
      rw [hstd]
      exact List.mem_map.mpr ⟨listMin xs, listMin_mem hne, by rw [sub_self, zero_div]⟩
    have h1 : (1 : Val) ∈ standardize xs := by
      rw [hstd]
      exact List.mem_map.mpr ⟨listMax xs, listMax_mem hne, div_self (ne_of_gt hd)⟩
    have hlb : ∀ y ∈ standardize xs, 0 ≤ y := by
      intro y hy
      rw [hstd] at hy
      rcases List.mem_map.mp hy with ⟨x, hx, hfx⟩
      rw [← hfx]
      exact div_nonneg (sub_nonneg.mpr (listMin_le hx)) hd.le
    have hub : ∀ y ∈ standardize xs, y ≤ 1 := by
      intro y hy
      rw [hstd] at hy
      rcases List.mem_map.mp hy with ⟨x, hx, hfx⟩
      rw [← hfx]
      exact (div_le_one hd).mpr (sub_le_sub_right (le_listMax hx) (listMin xs))
    have hsne : standardize xs ≠ [] := List.ne_nil_of_mem h0
    constructor
    · exact le_antisymm (listMin_le h0) (hlb _ (listMin_mem hsne))
    · exact le_antisymm (hub _ (listMax_mem hsne)) (le_listMax h1)

lemma callCore_eq_okBody (m : GModel) (score : ScoreArg) (seed_input : SeedArg)
    (am : Option (Val → Val)) (training : Bool) (ec sc : Bool) (ug : UnconnectedGradients)
    {scores : List ScoreF} {seeds : List T} {grads0 : T}
    (hs : getScoresForMultipleOutputs m.numOutputs score = .ok scores)
    (hd : getSeedInputsForMultipleInputs m.inputSpecs seed_input = .ok seeds)
    (hp : m.penultimateResolved = true)
    (hg : tapeGradient m seeds
      (calculateScores ((augmentedOutputs m training seeds).dropLast) scores)
      ((augmentedOutputs m training seeds).getLastD defaultT) ug = some grads0) :
    Gradcam.callCore m score seed_input am training ec sc ug
      = okBody m seed_input am training ec sc ug seeds grads0 := by
  unfold Gradcam.callCore
  rw [hs, hd]
  unfold modelModifier
  rw [hp]
  simp only [if_true]
  rw [hg]
  rfl

lemma call_ok_elim (m : GModel) (args : CallArgs)
    (hok : isOkResult (Gradcam.call m args).result = true) :
    ∃ scores seeds grads0,
      getScoresForMultipleOutputs m.numOutputs args.score = .ok scores
      ∧ getSeedInputsForMultipleInputs m.inputSpecs args.seed_input = .ok seeds
      ∧ m.penultimateResolved = true
      ∧ tapeGradient m seeds
          (calculateScores ((augmentedOutputs m args.training seeds).dropLast) scores)
          ((augmentedOutputs m args.training seeds).getLastD defaultT)
          args.unconnected_gradients = some grads0 := by
  unfold Gradcam.call Gradcam.callCore at hok
  cases hs : getScoresForMultipleOutputs m.numOutputs args.score with
  | error e => rw [hs] at hok; simp [isOkResult] at hok
  | ok scores =>
    rw [hs] at hok
    cases hd : getSeedInputsForMultipleInputs m.inputSpecs args.seed_input with
    | error e => rw [hd] at hok; simp [isOkResult] at hok
    | ok seeds =>
      rw [hd] at hok
      cases hp : m.penultimateResolved with
      | false =>
        unfold modelModifier at hok
        rw [hp] at hok
        simp [isOkResult] at hok
      | true =>
        unfold modelModifier at hok
        rw [hp] at hok
        simp only [if_true] at hok
        cases hg : tapeGradient m seeds
            (calculateScores ((augmentedOutputs m args.training seeds).dropLast) scores)
            ((augmentedOutputs m args.training seeds).getLastD defaultT)
            args.unconnected_gradients with
        | none => rw [hg] at hok; simp [isOkResult] at hok
        | some grads0 => exact ⟨scores, seeds, grads0, rfl, rfl, rfl, hg⟩

lemma validateSeedInputs_length :
    ∀ (specs : List (List Nat)) (ts vs : List T),
      validateSeedInputs specs ts = .ok vs → vs.length = specs.length := by
  intro specs
  induction specs with
  | nil =>
    intro ts vs h
    cases ts with
    | nil => cases h; rfl
    | cons t ts => cases h
  | cons spec specs ih =>
    intro ts vs h
    cases ts with
    | nil => cases h
    | cons t ts =>
      simp only [validateSeedInputs] at h
      split at h
      · cases h
        rename_i v vs' hv hvs
        simp [ih ts vs' hvs]
      · cases h
      · cases h

lemma getSeedInputs_length {specs : List (List Nat)} {sa : SeedArg} {seeds : List T}
    (h : getSeedInputsForMultipleInputs specs sa = .ok seeds) :
    seeds.length = specs.length := by
  cases sa with
  | noSeed => cases h
  | single t =>
    simp only [getSeedInputsForMultipleInputs] at h
    split at h
    · exact validateSeedInputs_length specs [t] seeds h
    · cases h
  | multi ts =>
    exact validateSeedInputs_length specs ts seeds h

lemma getScores_error_shape {n : Nat} {sa : ScoreArg} {e : GErr}
    (h : getScoresForMultipleOutputs n sa = .error e) : ∃ s, e = .valueError s := by
  cases sa with
  | noScore => cases h; exact ⟨_, rfl⟩
  | single s =>
    simp only [getScoresForMultipleOutputs] at h
    split at h
    · cases h
    · cases h; exact ⟨_, rfl⟩
  | multi ss =>
    simp only [getScoresForMultipleOutputs] at h
    split at h
    · cases h
    · cases h; exact ⟨_, rfl⟩

lemma validateSeedInput_error_shape {spec : List Nat} {t : T} {e : GErr}
    (h : validateSeedInput spec t = .error e) : ∃ s, e = .valueError s := by
  simp only [validateSeedInput] at h
  split at h
  · cases h
  · split at h
    · cases h
    · cases h; exact ⟨_, rfl⟩

lemma validateSeedInputs_error_shape :
    ∀ (specs : List (List Nat)) (ts : List T) {e : GErr},
      validateSeedInputs specs ts = .error e → ∃ s, e = .valueError s := by
  intro specs
  induction specs with
  | nil =>
    intro ts e h
    cases ts with
    | nil => cases h
    | cons t ts => cases h; exact ⟨_, rfl⟩
  | cons spec specs ih =>
    intro ts e h
    cases ts with
    | nil => cases h; exact ⟨_, rfl⟩
    | cons t ts =>
      simp only [validateSeedInputs] at h
      split at h
      · cases h
      · cases h
        rename_i hv
        exact validateSeedInput_error_shape hv
      · cases h
        rename_i hvs
        exact ih ts hvs

lemma getSeedInputs_error_shape {specs : List (List Nat)} {sa : SeedArg} {e : GErr}
    (h : getSeedInputsForMultipleInputs specs sa = .error e) : ∃ s, e = .valueError s := by
  cases sa with
  | noSeed => cases h; exact ⟨_, rfl⟩
  | single t =>
    simp only [getSeedInputsForMultipleInputs] at h
    split at h
    · exact validateSeedInputs_error_shape specs [t] h
    · cases h; exact ⟨_, rfl⟩
  | multi ts => exact validateSeedInputs_error_shape specs ts h

lemma standardize_length (xs : List Val) : (standardize xs).length = xs.length := by
  unfold standardize; split <;> simp

lemma camData_length (pen : T) (w : List Val) : (camData pen w).length = pen.batch := by
  simp [camData]

lemma camData_row_length {pen : T} {w : List Val} {r : List Val}
    (hr : r ∈ camData pen w) : r.length = pen.positions := by
  unfold camData at hr
  rcases List.mem_map.mp hr with ⟨b, _, hb⟩
  rw [← hb]; simp

lemma headD_mem {α : Type} (l : List α) (d : α) (h : l ≠ []) : l.headD d ∈ l := by
  cases l with
  | nil => exact absurd rfl h
  | cons x xs => exact List.mem_cons_self x xs

lemma okBody_fst (m : GModel) (seed_input : SeedArg) (am : Option (Val → Val))
    (training : Bool) (ec sc : Bool) (ug : UnconnectedGradients)
    (seeds : List T) (grads0 : T) :
    (okBody m seed_input am training ec sc ug seeds grads0).1
      = okResult m seed_input am training ec sc seeds grads0 := by
  unfold okBody okResult
  cases ec <;> cases sc <;> cases am <;> (try rfl) <;>
    (by_cases h : m.inputSpecs.length = 1 ∧ seed_input.isList = false <;>
      first
        | (simp only [if_pos h]; rfl)
        | (simp only [if_neg h]; rfl))

lemma okBody_snd (m : GModel) (seed_input : SeedArg) (am : Option (Val → Val))
    (training : Bool) (ec sc : Bool) (ug : UnconnectedGradients)
    (seeds : List T) (grads0 : T) :
    (okBody m seed_input am training ec sc ug seeds grads0).2
      = okEvents m am training ec sc ug seeds grads0 := by
  unfold okBody okEvents baseEvents coreEvents
  cases ec <;> cases sc <;> cases am <;> (try rfl) <;>
    (by_cases h : m.inputSpecs.length = 1 ∧ seed_input.isList = false <;>
      first
        | (simp only [if_pos h]; rfl)
        | (simp only [if_neg h]; rfl))

lemma call_result_eq (m : GModel) (args : CallArgs)
    {scores : List ScoreF} {seeds : List T} {grads0 : T}
    (hs : getScoresForMultipleOutputs m.numOutputs args.score = .ok scores)
    (hd : getSeedInputsForMultipleInputs m.inputSpecs args.seed_input = .ok seeds)
    (hp : m.penultimateResolved = true)
    (hg : tapeGradient m seeds
      (calculateScores ((augmentedOutputs m args.training seeds).dropLast) scores)
      ((augmentedOutputs m args.training seeds).getLastD defaultT)
      args.unconnected_gradients = some grads0) :
    (Gradcam.call m args).result
      = okResult m args.seed_input args.activation_modifier args.training
          args.expand_cam args.standardize_cam seeds grads0 := by
  show (Gradcam.callCore m args.score args.seed_input args.activation_modifier
    args.training args.expand_cam args.standardize_cam args.unconnected_gradients).1 = _
  rw [callCore_eq_okBody m args.score args.seed_input args.activation_modifier
    args.training args.expand_cam args.standardize_cam args.unconnected_gradients
    hs hd hp hg]
  exact okBody_fst m args.seed_input args.activation_modifier args.training
    args.expand_cam args.standardize_cam args.unconnected_gradients seeds grads0

lemma call_events_eq (m : GModel) (args : CallArgs)
    {scores : List ScoreF} {seeds : List T} {grads0 : T}
    (hs : getScoresForMultipleOutputs m.numOutputs args.score = .ok scores)
    (hd : getSeedInputsForMultipleInputs m.inputSpecs args.seed_input = .ok seeds)
    (hp : m.penultimateResolved = true)
    (hg : tapeGradient m seeds
      (calculateScores ((augmentedOutputs m args.training seeds).dropLast) scores)
      ((augmentedOutputs m args.training seeds).getLastD defaultT)
      args.unconnected_gradients = some grads0) :
    (Gradcam.call m args).events
      = okEvents m args.activation_modifier args.training
          args.expand_cam args.standardize_cam args.unconnected_gradients seeds grads0 := by
  show (Gradcam.callCore m args.score args.seed_input args.activation_modifier
    args.training args.expand_cam args.standardize_cam args.unconnected_gradients).2 = _
  rw [callCore_eq_okBody m args.score args.seed_input args.activation_modifier
    args.training args.expand_cam args.standardize_cam args.unconnected_gradients
    hs hd hp hg]
  exact okBody_snd m args.seed_input args.activation_modifier args.training
    args.expand_cam args.standardize_cam args.unconnected_gradients seeds grads0

lemma okResult_isOk (m : GModel) (seed_input : SeedArg) (am : Option (Val → Val))
    (training ec sc : Bool) (seeds : List T) (grads0 : T) :
    ∃ out, okResult m seed_input am training ec sc seeds grads0 = .ok out := by
  unfold okResult
  split_ifs <;> exact ⟨_, rfl⟩

lemma getScores_noScore_failed (n : Nat) :
    exceptFailed (getScoresForMultipleOutputs n .noScore) = true := rfl

lemma watch_pen_not_mem_coreEvents (m : GModel) (training : Bool)
    (ug : UnconnectedGradients) (seeds : List T) (grads0 : T) :
    Event.watch .penultimateActivation ∉ coreEvents m training ug seeds grads0 := by
  unfold coreEvents
  simp

lemma watch_pen_not_mem_okEvents (m : GModel) (am : Option (Val → Val))
    (training ec sc : Bool) (ug : UnconnectedGradients) (seeds : List T) (grads0 : T) :
    Event.watch .penultimateActivation ∉ okEvents m am training ec sc ug seeds grads0 := by
  unfold okEvents baseEvents coreEvents
  cases am <;> split_ifs <;> simp

lemma mem_okEvents_of_mem_core {e : Event} (m : GModel) (am : Option (Val → Val))
    (training ec sc : Bool) (ug : UnconnectedGradients) (seeds : List T) (grads0 : T)
    (he : e ∈ coreEvents m training ug seeds grads0) :
    e ∈ okEvents m am training ec sc ug seeds grads0 := by
  unfold okEvents baseEvents
  split_ifs <;> simp [List.mem_append, he]

lemma castTo_dtype (t : T) (d : DType) : (t.castTo d).dtype = d := rfl

lemma act_not_mem_coreEvents (m : GModel) (training : Bool)
    (ug : UnconnectedGradients) (seeds : List T) (grads0 : T) :
    Event.activationApplied ∉ coreEvents m training ug seeds grads0 := by
  unfold coreEvents
  simp

lemma zoom_not_mem_coreEvents (m : GModel) (training : Bool)
    (ug : UnconnectedGradients) (seeds : List T) (grads0 : T) (n : Nat) :
    Event.zoomApplied n ∉ coreEvents m training ug seeds grads0 := by
  unfold coreEvents
  simp

lemma finalCams_length (sc : Bool) (cs : List (List (List Val))) :
    (finalCams sc cs).length = cs.length := by
  unfold finalCams
  split_ifs <;> simp

lemma zoomedCams_length (m : GModel) (am : Option (Val → Val)) (training : Bool)
    (seeds : List T) (grads0 : T) :
    (zoomedCams m am training seeds grads0).length = seeds.length := by
  unfold zoomedCams
  simp

lemma penult_eq_getLastD (m : GModel) (training : Bool) (seeds : List T) :
    (augmentedOutputs m training seeds).getLastD defaultT = m.penult training seeds := by
  simp [augmentedOutputs]

lemma camOfGrads_length (m : GModel) (training : Bool) (seeds : List T) (grads0 : T) :
    (camOfGrads m training seeds grads0).length = (m.penult training seeds).batch := by
  unfold camOfGrads
  rw [camData_length]
  split_ifs
  · rw [penult_eq_getLastD]; rfl
  · rw [penult_eq_getLastD]

lemma camAct_length (am : Option (Val → Val)) (c : List (List Val)) :
    (camAct am c).length = c.length := by
  cases am <;> simp [camAct, elemMap]

lemma camOfGrads_row_length (m : GModel) (training : Bool) (seeds : List T) (grads0 : T)
    {r : List Val} (hr : r ∈ camOfGrads m training seeds grads0) :
    r.length = (m.penult training seeds).positions := by
  unfold camOfGrads at hr
  have := camData_row_length hr
  rw [this]
  split_ifs
  · rw [penult_eq_getLastD]; rfl
  · rw [penult_eq_getLastD]

lemma camAct_row_length (am : Option (Val → Val)) (c : List (List Val))
    {r : List Val} (hr : r ∈ camAct am c) : ∃ s ∈ c, r.length = s.length := by
  cases am with
  | none => exact ⟨r, hr, rfl⟩
  | some f =>
    rcases List.mem_map.mp hr with ⟨s, hs, hfs⟩
    exact ⟨s, hs, by rw [← hfs]; simp⟩

lemma standardizeCamBatch_row (x : List (List Val)) {r : List Val}
    (hr : r ∈ standardizeCamBatch x) :
    (listMin r = 0 ∧ listMax r = 1) ∨ ∀ y ∈ r, y = 0 := by
  rcases List.mem_map.mp hr with ⟨s, _, hfs⟩
  rw [← hfs]
  exact standardize_cases s

/-- C1 counterexample: on a model whose objective is not connected to the
penultimate activation, a call with all-default options (in particular the
default unconnected-gradients policy, which is NONE, not zero-fill) produces
an error, not a well-defined zero-filled map. -/
theorem C1_counterexample :
    (Gradcam.call mDisconnected args0).result = .error .noneGradient
      ∧ args0.unconnected_gradients = .NONE := ⟨rfl, rfl⟩

/-- C1 (amended): the default unconnected-gradients policy at the public call
surface is NONE, not zero-fill: when the gradient engine cannot connect the
objective to the penultimate activation, a call left at the default produces
an error (the gradient comes back as Python None and the pipeline fails on
it), while passing the ZERO policy explicitly yields a zero-filled gradient
and a well-defined (non-error) map. -/
theorem C1_amended_default_policy_is_none (m : GModel) (args : CallArgs)
    (scores : List ScoreF) (seeds : List T)
    (hs : getScoresForMultipleOutputs m.numOutputs args.score = .ok scores)
    (hd : getSeedInputsForMultipleInputs m.inputSpecs args.seed_input = .ok seeds)
    (hp : m.penultimateResolved = true)
    (hc : m.connected = false) :
    (∀ s t, ({ score := s, seed_input := t } : CallArgs).unconnected_gradients
        = UnconnectedGradients.NONE)
    ∧ (args.unconnected_gradients = .NONE →
        (Gradcam.call m args).result = .error .noneGradient)
    ∧ (args.unconnected_gradients = .ZERO →
        (∃ out, (Gradcam.call m args).result = .ok out)
        ∧ ∀ sv pen, ∃ g, tapeGradient m seeds sv pen .ZERO = some g
            ∧ ∀ y ∈ g.data, y = 0) := by
  refine ⟨fun s t => rfl, fun hug => ?_, fun hug => ⟨?_, fun sv pen => ?_⟩⟩
  · show (Gradcam.callCore m args.score args.seed_input args.activation_modifier
      args.training args.expand_cam args.standardize_cam args.unconnected_gradients).1
      = .error .noneGradient
    unfold Gradcam.callCore
    rw [hs, hd]
    unfold modelModifier
    rw [hp]
    simp only [if_true]
    have hnone : tapeGradient m seeds
        (calculateScores ((augmentedOutputs m args.training seeds).dropLast) scores)
        ((augmentedOutputs m args.training seeds).getLastD defaultT)
        args.unconnected_gradients = none := by
      unfold tapeGradient
      rw [hc, hug]
      simp
    rw [hnone]
  · have hzero : tapeGradient m seeds
        (calculateScores ((augmentedOutputs m args.training seeds).dropLast) scores)
        ((augmentedOutputs m args.training seeds).getLastD defaultT)
        args.unconnected_gradients
        = some ⟨((augmentedOutputs m args.training seeds).getLastD defaultT).shape,
            ((augmentedOutputs m args.training seeds).getLastD defaultT).data.map fun _ => 0,
            ((augmentedOutputs m args.training seeds).getLastD defaultT).dtype⟩ := by
      unfold tapeGradient
      rw [hc, hug]
      simp
    rw [call_result_eq m args hs hd hp hzero]
    exact okResult_isOk m args.seed_input args.activation_modifier args.training
      args.expand_cam args.standardize_cam seeds _
  · refine ⟨⟨pen.shape, pen.data.map fun _ => 0, pen.dtype⟩, ?_, ?_⟩
    · unfold tapeGradient
      rw [hc]
      simp
    · intro y hy
      rcases List.mem_map.mp hy with ⟨x, _, hx⟩
      exact hx.symm

theorem C1_amended_witness :
    getScoresForMultipleOutputs mDisconnected.numOutputs argsZero.score = .ok [score0]
    ∧ getSeedInputsForMultipleInputs mDisconnected.inputSpecs argsZero.seed_input
        = .ok [seed0]
    ∧ mDisconnected.penultimateResolved = true
    ∧ mDisconnected.connected = false
    ∧ ((∀ s t, ({ score := s, seed_input := t } : CallArgs).unconnected_gradients
          = UnconnectedGradients.NONE)
      ∧ (argsZero.unconnected_gradients = .NONE →
          (Gradcam.call mDisconnected argsZero).result = .error .noneGradient)
      ∧ (argsZero.unconnected_gradients = .ZERO →
          (∃ out, (Gradcam.call mDisconnected argsZero).result = .ok out)
          ∧ ∀ sv pen, ∃ g, tapeGradient mDisconnected [seed0] sv pen .ZERO = some g
              ∧ ∀ y ∈ g.data, y = 0)) :=
  ⟨rfl, rfl, rfl, rfl,
    C1_amended_default_policy_is_none mDisconnected argsZero [score0] [seed0] rfl rfl rfl rfl⟩

/-- C2 counterexample: on a concrete class-activation call, the gradient
tracking context watches the seed inputs, not the resolved penultimate
activation: no watch event for the penultimate activation appears in the
trace. -/
theorem C2_counterexample :
    Event.watch .penultimateActivation ∉ (Gradcam.call mConv args0).events
    ∧ Event.watch .seedInputs ∈ (Gradcam.call mConv args0).events := by
  constructor
  · decide
  · decide

/-- C2 (amended): for every class-activation call that passes validation, the
engine opens the gradient-tracking context around the forward pass and watches
the seed inputs (never the penultimate activation); the penultimate activation
is tracked only as a function of the watched inputs, and the gradients of the
score are then requested with respect to the penultimate activation. -/
theorem C2_amended_tape_watches_seed_inputs (m : GModel) (args : CallArgs)
    (scores : List ScoreF) (seeds : List T)
    (hs : getScoresForMultipleOutputs m.numOutputs args.score = .ok scores)
    (hd : getSeedInputsForMultipleInputs m.inputSpecs args.seed_input = .ok seeds)
    (hp : m.penultimateResolved = true) :
    (∃ tail, (Gradcam.call m args).events
      = Event.watch .seedInputs :: Event.forwardCall
        :: Event.scoreEval ((augmentedOutputs m args.training seeds).dropLast)
        :: Event.gradientCall ((augmentedOutputs m args.training seeds).getLastD defaultT)
             args.unconnected_gradients :: tail)
    ∧ Event.watch .penultimateActivation ∉ (Gradcam.call m args).events := by
  cases hg : tapeGradient m seeds
      (calculateScores ((augmentedOutputs m args.training seeds).dropLast) scores)
      ((augmentedOutputs m args.training seeds).getLastD defaultT)
      args.unconnected_gradients with
  | none =>
    have he : (Gradcam.call m args).events
        = [Event.watch .seedInputs, Event.forwardCall,
            Event.scoreEval ((augmentedOutputs m args.training seeds).dropLast),
            Event.gradientCall ((augmentedOutputs m args.training seeds).getLastD defaultT)
              args.unconnected_gradients] := by
      show (Gradcam.callCore m args.score args.seed_input args.activation_modifier
        args.training args.expand_cam args.standardize_cam args.unconnected_gradients).2 = _
      unfold Gradcam.callCore
      rw [hs, hd]
      unfold modelModifier
      rw [hp]
      simp only [if_true]
      rw [hg]
    rw [he]
    exact ⟨⟨[], rfl⟩, by simp⟩
  | some grads0 =>
    have he := call_events_eq m args hs hd hp hg
    rw [he]
    constructor
    · unfold okEvents baseEvents coreEvents
      cases args.activation_modifier <;> split_ifs <;> exact ⟨_, rfl⟩
    · exact watch_pen_not_mem_okEvents m args.activation_modifier args.training
        args.expand_cam args.standardize_cam args.unconnected_gradients seeds grads0

theorem C2_amended_witness :
    getScoresForMultipleOutputs mConv.numOutputs args0.score = .ok [score0]
    ∧ getSeedInputsForMultipleInputs mConv.inputSpecs args0.seed_input = .ok [seed0]
    ∧ mConv.penultimateResolved = true
    ∧ ((∃ tail, (Gradcam.call mConv args0).events
        = Event.watch .seedInputs :: Event.forwardCall
          :: Event.scoreEval ((augmentedOutputs mConv args0.training [seed0]).dropLast)
          :: Event.gradientCall
               ((augmentedOutputs mConv args0.training [seed0]).getLastD defaultT)
               args0.unconnected_gradients :: tail)
      ∧ Event.watch .penultimateActivation ∉ (Gradcam.call mConv args0).events) :=
  ⟨rfl, rfl, rfl,
    C2_amended_tape_watches_seed_inputs mConv args0 [score0] [seed0] rfl rfl rfl⟩

/-- C3: for every map produced with standardization enabled, per example the
values are rescaled to the unit interval by (x - min) / (max - min): every row
of every returned map has minimum 0 and maximum 1, except when the raw row is
constant (zero range), in which case every element equals the fallback
constant 0 instead of propagating a division by zero. -/
theorem C3_standardization_law (m : GModel) (args : CallArgs)
    (hstd : args.standardize_cam = true)
    (hok : isOkResult (Gradcam.call m args).result = true)
    (c : List (List Val)) (hc : c ∈ resultMaps (Gradcam.call m args).result)
    (r : List Val) (hr : r ∈ c) :
    (listMin r = 0 ∧ listMax r = 1) ∨ ∀ y ∈ r, y = 0 := by
  rcases call_ok_elim m args hok with ⟨scores, seeds, grads0, hs, hd, hp, hg⟩
  rw [call_result_eq m args hs hd hp hg] at hc
  unfold okResult at hc
  rw [hstd] at hc
  simp only [eq_self_iff_true, if_true] at hc
  split_ifs at hc with h1 h2
  · simp only [resultMaps, CamOutput.maps] at hc
    rw [List.mem_singleton] at hc
    subst hc
    exact standardizeCamBatch_row _ hr
  · simp only [resultMaps, CamOutput.maps] at hc
    rw [List.mem_singleton] at hc
    subst hc
    unfold finalCams at hr
    rw [if_pos rfl] at hr
    cases hz : zoomedCams m args.activation_modifier args.training seeds grads0 with
    | nil =>
      rw [hz] at hr
      simp at hr
    | cons z zs =>
      rw [hz] at hr
      simp only [List.map_cons, List.headD_cons] at hr
      exact standardizeCamBatch_row z hr
  · simp only [resultMaps, CamOutput.maps] at hc
    unfold finalCams at hc
    rw [if_pos rfl] at hc
    rcases List.mem_map.mp hc with ⟨x, _, hfx⟩
    rw [← hfx] at hr
    exact standardizeCamBatch_row x hr

theorem C3_witness :
    args0.standardize_cam = true
    ∧ isOkResult (Gradcam.call mConv args0).result = true
    ∧ (resultMaps (Gradcam.call mConv args0).result).headD []
        ∈ resultMaps (Gradcam.call mConv args0).result
    ∧ ((resultMaps (Gradcam.call mConv args0).result).headD []).headD []
        ∈ (resultMaps (Gradcam.call mConv args0).result).headD []
    ∧ ((listMin (((resultMaps (Gradcam.call mConv args0).result).headD []).headD []) = 0
        ∧ listMax (((resultMaps (Gradcam.call mConv args0).result).headD []).headD []) = 1)
      ∨ ∀ y ∈ ((resultMaps (Gradcam.call mConv args0).result).headD []).headD [], y = 0) :=
  ⟨rfl, rfl,
    headD_mem _ _ (List.ne_nil_of_length_pos (by decide)),
    headD_mem _ _ (List.ne_nil_of_length_pos (by decide)),
    C3_standardization_law mConv args0 rfl rfl
      ((resultMaps (Gradcam.call mConv args0).result).headD [])
      (headD_mem _ _ (List.ne_nil_of_length_pos (by decide)))
      (((resultMaps (Gradcam.call mConv args0).result).headD []).headD [])
      (headD_mem _ _ (List.ne_nil_of_length_pos (by decide)))⟩

/-- C4: under mixed-precision execution, both the gradients and the penultimate
activation they are multiplied with are cast to the model's variable dtype
before the arithmetic that affects the final map: on every successful call on
a mixed-precision model, the channel-mean weighting consumes a gradients
tensor of the variable dtype and the weighted sum consumes a penultimate
tensor of the variable dtype. -/
theorem C4_mixed_precision_casts_before_weighting (m : GModel) (args : CallArgs)
    (hmp : m.mixedPrecision = true)
    (hok : isOkResult (Gradcam.call m args).result = true) :
    Event.weightsComputed m.variableDtype ∈ (Gradcam.call m args).events
    ∧ Event.camComputed m.variableDtype ∈ (Gradcam.call m args).events := by
  rcases call_ok_elim m args hok with ⟨scores, seeds, grads0, hs, hd, hp, hg⟩
  rw [call_events_eq m args hs hd hp hg]
  constructor <;>
  · refine mem_okEvents_of_mem_core m args.activation_modifier args.training
      args.expand_cam args.standardize_cam args.unconnected_gradients seeds grads0 ?_
    unfold coreEvents
    rw [hmp]
    simp [castTo_dtype]

theorem C4_witness :
    mMixed.mixedPrecision = true
    ∧ isOkResult (Gradcam.call mMixed args0).result = true
    ∧ (Event.weightsComputed mMixed.variableDtype ∈ (Gradcam.call mMixed args0).events
      ∧ Event.camComputed mMixed.variableDtype ∈ (Gradcam.call mMixed args0).events) :=
  ⟨rfl, rfl, C4_mixed_precision_casts_before_weighting mMixed args0 rfl rfl⟩

/-- C5: for every successful call, when an activation modifier is given it is
applied (elementwise, as modelled) after the weighting and before any
resampling: the trace decomposes around a single activation event with no
zoom event before it; when the modifier is None the step is skipped and no
activation event is ever emitted. -/
theorem C5_activation_before_resizing (m : GModel) (args : CallArgs)
    (hok : isOkResult (Gradcam.call m args).result = true) :
    (args.activation_modifier = none →
      Event.activationApplied ∉ (Gradcam.call m args).events)
    ∧ (∀ f, args.activation_modifier = some f →
      ∃ pre post, (Gradcam.call m args).events = pre ++ Event.activationApplied :: post
        ∧ ∀ n, Event.zoomApplied n ∉ pre) := by
  rcases call_ok_elim m args hok with ⟨scores, seeds, grads0, hs, hd, hp, hg⟩
  have he := call_events_eq m args hs hd hp hg
  constructor
  · intro hnone
    rw [he]
    unfold okEvents baseEvents
    rw [hnone]
    split_ifs <;> simp [act_not_mem_coreEvents]
  · intro f hf
    rw [he]
    unfold okEvents baseEvents
    rw [hf]
    split_ifs with h1 h2 h3
    · refine ⟨coreEvents m args.training args.unconnected_gradients seeds grads0,
        [Event.standardizeApplied], by simp, ?_⟩
      intro n
      exact zoom_not_mem_coreEvents m args.training args.unconnected_gradients seeds grads0 n
    · refine ⟨coreEvents m args.training args.unconnected_gradients seeds grads0,
        [], by simp, ?_⟩
      intro n
      exact zoom_not_mem_coreEvents m args.training args.unconnected_gradients seeds grads0 n
    · refine ⟨coreEvents m args.training args.unconnected_gradients seeds grads0,
        (seeds.map fun X => Event.zoomApplied (targetLen X)) ++ [Event.standardizeApplied],
        by simp, ?_⟩
      intro n
      exact zoom_not_mem_coreEvents m args.training args.unconnected_gradients seeds grads0 n
    · refine ⟨coreEvents m args.training args.unconnected_gradients seeds grads0,
        (seeds.map fun X => Event.zoomApplied (targetLen X)) ++ [], by simp, ?_⟩
      intro n
      exact zoom_not_mem_coreEvents m args.training args.unconnected_gradients seeds grads0 n

theorem C5_witness :
    isOkResult (Gradcam.call mConv args0).result = true
    ∧ ((args0.activation_modifier = none →
        Event.activationApplied ∉ (Gradcam.call mConv args0).events)
      ∧ (∀ f, args0.activation_modifier = some f →
        ∃ pre post, (Gradcam.call mConv args0).events
            = pre ++ Event.activationApplied :: post
          ∧ ∀ n, Event.zoomApplied n ∉ pre)) :=
  ⟨rfl, C5_activation_before_resizing mConv args0 rfl⟩

/-- C6: for every successful call with map expansion enabled, if the model has
exactly one input and the caller's seed input was not passed as a list, the
single-element result list is unwrapped and a bare map is returned; otherwise
a list of maps parallel to the model's inputs is returned. -/
theorem C6_single_input_unwrapping (m : GModel) (args : CallArgs)
    (hexp : args.expand_cam = true)
    (hok : isOkResult (Gradcam.call m args).result = true) :
    (m.inputSpecs.length = 1 ∧ args.seed_input.isList = false →
      ∃ c, (Gradcam.call m args).result = .ok (.single c))
    ∧ (¬ (m.inputSpecs.length = 1 ∧ args.seed_input.isList = false) →
      ∃ cs, (Gradcam.call m args).result = .ok (.multi cs)
        ∧ cs.length = m.inputSpecs.length) := by
  rcases call_ok_elim m args hok with ⟨scores, seeds, grads0, hs, hd, hp, hg⟩
  rw [call_result_eq m args hs hd hp hg]
  unfold okResult
  rw [hexp]
  simp only [Bool.true_eq_false, if_false]
  constructor
  · intro h
    rw [if_pos h]
    exact ⟨_, rfl⟩
  · intro h
    rw [if_neg h]
    refine ⟨_, rfl, ?_⟩
    rw [finalCams_length, zoomedCams_length]
    exact getSeedInputs_length hd

theorem C6_witness :
    argsTwo.expand_cam = true
    ∧ isOkResult (Gradcam.call mTwo argsTwo).result = true
    ∧ ((mTwo.inputSpecs.length = 1 ∧ argsTwo.seed_input.isList = false →
        ∃ c, (Gradcam.call mTwo argsTwo).result = .ok (.single c))
      ∧ (¬ (mTwo.inputSpecs.length = 1 ∧ argsTwo.seed_input.isList = false) →
        ∃ cs, (Gradcam.call mTwo argsTwo).result = .ok (.multi cs)
          ∧ cs.length = mTwo.inputSpecs.length)) :=
  ⟨rfl, rfl, C6_single_input_unwrapping mTwo argsTwo rfl rfl⟩

/-- C7: for every call that passes validation, the augmented model's output
list is the original model's outputs with the resolved penultimate activation
appended last; the scores are evaluated only against the original outputs (all
augmented outputs but the appended last one), and the gradient is requested
with respect to the appended activation. -/
theorem C7_augmented_model_split (m : GModel) (args : CallArgs)
    (scores : List ScoreF) (seeds : List T)
    (hs : getScoresForMultipleOutputs m.numOutputs args.score = .ok scores)
    (hd : getSeedInputsForMultipleInputs m.inputSpecs args.seed_input = .ok seeds)
    (hp : m.penultimateResolved = true) :
    augmentedOutputs m args.training seeds
      = m.forward args.training seeds ++ [m.penult args.training seeds]
    ∧ (augmentedOutputs m args.training seeds).dropLast = m.forward args.training seeds
    ∧ (augmentedOutputs m args.training seeds).getLastD defaultT
        = m.penult args.training seeds
    ∧ Event.scoreEval ((augmentedOutputs m args.training seeds).dropLast)
        ∈ (Gradcam.call m args).events
    ∧ Event.gradientCall ((augmentedOutputs m args.training seeds).getLastD defaultT)
        args.unconnected_gradients ∈ (Gradcam.call m args).events := by
  refine ⟨rfl, by simp [augmentedOutputs], by simp [augmentedOutputs], ?_, ?_⟩ <;>
  · cases hg : tapeGradient m seeds
        (calculateScores ((augmentedOutputs m args.training seeds).dropLast) scores)
        ((augmentedOutputs m args.training seeds).getLastD defaultT)
        args.unconnected_gradients with
    | none =>
      have he : (Gradcam.call m args).events
          = [Event.watch .seedInputs, Event.forwardCall,
              Event.scoreEval ((augmentedOutputs m args.training seeds).dropLast),
              Event.gradientCall ((augmentedOutputs m args.training seeds).getLastD defaultT)
                args.unconnected_gradients] := by
        show (Gradcam.callCore m args.score args.seed_input args.activation_modifier
          args.training args.expand_cam args.standardize_cam args.unconnected_gradients).2 = _
        unfold Gradcam.callCore
        rw [hs, hd]
        unfold modelModifier
        rw [hp]
        simp only [if_true]
        rw [hg]
      rw [he]
      simp
    | some grads0 =>
      rw [call_events_eq m args hs hd hp hg]
      refine mem_okEvents_of_mem_core m args.activation_modifier args.training
        args.expand_cam args.standardize_cam args.unconnected_gradients seeds grads0 ?_
      unfold coreEvents
      simp

theorem C7_witness :
    getScoresForMultipleOutputs mConv.numOutputs args0.score = .ok [score0]
    ∧ getSeedInputsForMultipleInputs mConv.inputSpecs args0.seed_input = .ok [seed0]
    ∧ mConv.penultimateResolved = true
    ∧ (augmentedOutputs mConv args0.training [seed0]
        = mConv.forward args0.training [seed0] ++ [mConv.penult args0.training [seed0]]
      ∧ (augmentedOutputs mConv args0.training [seed0]).dropLast
          = mConv.forward args0.training [seed0]
      ∧ (augmentedOutputs mConv args0.training [seed0]).getLastD defaultT
          = mConv.penult args0.training [seed0]
      ∧ Event.scoreEval ((augmentedOutputs mConv args0.training [seed0]).dropLast)
          ∈ (Gradcam.call mConv args0).events
      ∧ Event.gradientCall ((augmentedOutputs mConv args0.training [seed0]).getLastD defaultT)
          args0.unconnected_gradients ∈ (Gradcam.call mConv args0).events) :=
  ⟨rfl, rfl, rfl, C7_augmented_model_split mConv args0 [score0] [seed0] rfl rfl rfl⟩

/-- C8: for every invalid argument (missing or malformed score, score or seed
cardinality mismatch, missing seed input or wrong rank, no suitable
penultimate layer), a ValueError-class error is raised before any gradient
computation: the result is an error, the event trace is empty (no watch, no
forward pass, no score evaluation, no gradient request), and in particular a
missing score always fails validation. -/
theorem C8_invalid_arguments_raise_before_gradient (m : GModel) (args : CallArgs)
    (h : exceptFailed (getScoresForMultipleOutputs m.numOutputs args.score) = true
       ∨ exceptFailed (getSeedInputsForMultipleInputs m.inputSpecs args.seed_input) = true
       ∨ m.penultimateResolved = false) :
    (∃ s, (Gradcam.call m args).result = .error (.valueError s))
    ∧ (Gradcam.call m args).events = []
    ∧ ∀ n, exceptFailed (getScoresForMultipleOutputs n .noScore) = true := by
  have hres : ∃ s, (Gradcam.call m args).result = .error (.valueError s) ∧
      (Gradcam.call m args).events = [] := by
    show ∃ s, (Gradcam.callCore m args.score args.seed_input args.activation_modifier
      args.training args.expand_cam args.standardize_cam args.unconnected_gradients).1
        = .error (.valueError s) ∧
      (Gradcam.callCore m args.score args.seed_input args.activation_modifier
        args.training args.expand_cam args.standardize_cam args.unconnected_gradients).2 = []
    unfold Gradcam.callCore
    cases hsc : getScoresForMultipleOutputs m.numOutputs args.score with
    | error e =>
      rcases getScores_error_shape hsc with ⟨s, hse⟩
      exact ⟨s, by rw [hse], rfl⟩
    | ok scores =>
      rcases h with h | h | h
      · rw [hsc] at h; cases h
      · cases hd : getSeedInputsForMultipleInputs m.inputSpecs args.seed_input with
        | error e =>
          rcases getSeedInputs_error_shape hd with ⟨s, hse⟩
          exact ⟨s, by rw [hse], rfl⟩
        | ok seeds => rw [hd] at h; cases h
      · cases hd : getSeedInputsForMultipleInputs m.inputSpecs args.seed_input with
        | error e =>
          rcases getSeedInputs_error_shape hd with ⟨s, hse⟩
          exact ⟨s, by rw [hse], rfl⟩
        | ok seeds =>
          unfold modelModifier
          rw [h]
          exact ⟨"Unable to determine penultimate layer.", rfl, rfl⟩
  rcases hres with ⟨s, h1, h2⟩
  exact ⟨⟨s, h1⟩, h2, getScores_noScore_failed⟩

theorem C8_witness :
    (exceptFailed (getScoresForMultipleOutputs mConv.numOutputs argsNoScore.score) = true
       ∨ exceptFailed (getSeedInputsForMultipleInputs mConv.inputSpecs argsNoScore.seed_input)
          = true
       ∨ mConv.penultimateResolved = false)
    ∧ ((∃ s, (Gradcam.call mConv argsNoScore).result = .error (.valueError s))
      ∧ (Gradcam.call mConv argsNoScore).events = []
      ∧ ∀ n, exceptFailed (getScoresForMultipleOutputs n .noScore) = true) :=
  ⟨Or.inl rfl,
    C8_invalid_arguments_raise_before_gradient mConv argsNoScore (Or.inl rfl)⟩

/-- C9: when `expand_cam` is false, a successful call returns a bare single map
at the penultimate feature-map resolution (one row per example of the
penultimate activation batch, one value per penultimate spatial position),
standardized per example when `standardize_cam` is true, without any resize
event and without wrapping in a per-input list, even for multi-input models. -/
theorem C9_no_expand_returns_feature_map (m : GModel) (args : CallArgs)
    (hexp : args.expand_cam = false)
    (hok : isOkResult (Gradcam.call m args).result = true) :
    (∃ cam, (Gradcam.call m args).result = .ok (.single cam)
      ∧ (∀ seeds, getSeedInputsForMultipleInputs m.inputSpecs args.seed_input = .ok seeds →
          cam.length = (m.penult args.training seeds).batch
          ∧ ∀ r ∈ cam, r.length = (m.penult args.training seeds).positions)
      ∧ (args.standardize_cam = true → ∀ r ∈ cam, ∃ s, r = standardize s))
    ∧ ∀ n, Event.zoomApplied n ∉ (Gradcam.call m args).events := by
  rcases call_ok_elim m args hok with ⟨scores, seeds, grads0, hs, hd, hp, hg⟩
  rw [call_result_eq m args hs hd hp hg, call_events_eq m args hs hd hp hg]
  constructor
  · unfold okResult
    rw [hexp]
    simp only [if_pos rfl]
    refine ⟨_, rfl, ?_, ?_⟩
    · intro seeds' hd'
      rw [hd] at hd'
      cases hd'
      constructor
      · split_ifs with h
        · unfold standardizeCamBatch
          rw [List.length_map, camAct_length, camOfGrads_length]
        · rw [camAct_length, camOfGrads_length]
      · intro r hr
        split_ifs at hr with h
        · unfold standardizeCamBatch at hr
          rcases List.mem_map.mp hr with ⟨s, hsmem, hfs⟩
          rw [← hfs, standardize_length]
          rcases camAct_row_length args.activation_modifier _ hsmem with ⟨u, hu, hlen⟩
          rw [hlen]
          exact camOfGrads_row_length m args.training seeds grads0 hu
        · rcases camAct_row_length args.activation_modifier _ hr with ⟨u, hu, hlen⟩
          rw [hlen]
          exact camOfGrads_row_length m args.training seeds grads0 hu
    · intro hsc r hr
      rw [if_pos hsc] at hr
      unfold standardizeCamBatch at hr
      rcases List.mem_map.mp hr with ⟨s, _, hfs⟩
      exact ⟨s, hfs.symm⟩
  · intro n
    unfold okEvents baseEvents
    rw [hexp]
    simp only [if_pos rfl]
    cases args.activation_modifier <;> split_ifs <;>
      simp [zoom_not_mem_coreEvents m args.training args.unconnected_gradients seeds grads0 n]

theorem C9_witness :
    argsTwoNoExpand.expand_cam = false
    ∧ isOkResult (Gradcam.call mTwo argsTwoNoExpand).result = true
    ∧ ((∃ cam, (Gradcam.call mTwo argsTwoNoExpand).result = .ok (.single cam)
        ∧ (∀ seeds, getSeedInputsForMultipleInputs mTwo.inputSpecs argsTwoNoExpand.seed_input
              = .ok seeds →
            cam.length = (mTwo.penult argsTwoNoExpand.training seeds).batch
            ∧ ∀ r ∈ cam, r.length = (mTwo.penult argsTwoNoExpand.training seeds).positions)
        ∧ (argsTwoNoExpand.standardize_cam = true → ∀ r ∈ cam, ∃ s, r = standardize s))
      ∧ ∀ n, Event.zoomApplied n ∉ (Gradcam.call mTwo argsTwoNoExpand).events) :=
  ⟨rfl, rfl, C9_no_expand_returns_feature_map mTwo argsTwoNoExpand rfl rfl⟩

/-- C10: for every fixed model, score, seed input and fixed values of all other
options, the map returned by `Gradcam.call` is identical across any two values
of the `normalize_gradient` option (including None versus non-None); the body
after the warning never reads the option, so the result and the event trace
agree, and only the deprecation warning depends on it. -/
theorem C10_normalize_gradient_inert (m : GModel) (args : CallArgs)
    (a b : Option Bool) :
    (Gradcam.call m { args with normalize_gradient := a }).result
      = (Gradcam.call m { args with normalize_gradient := b }).result
    ∧ (Gradcam.call m { args with normalize_gradient := a }).events
      = (Gradcam.call m { args with normalize_gradient := b }).events
    ∧ (Gradcam.call m { args with normalize_gradient := a }).warnings
      = (if a.isSome then [deprecationMessage] else []) :=
  ⟨rfl, rfl, rfl⟩
